import Mathlib

/-!
Shallow embedding of `core/kernel/dt.c` (OP-TEE device-tree helpers):
driver matching, status resolution, register-window address/size decoding
and device mapping orchestration, together with theorems settling the
specification claims about them.

Modelling conventions:
* Property bytes are `List Nat` (each element one byte); `fdt_getprop`
  returns `none` for an absent property and `some bytes` otherwise, the
  C `len` out-parameter being the list length.
* 32-bit device-tree cells are read big-endian from the byte list
  (`fdt32_to_cpu` composed with the memory read); reads past the stored
  bytes (unchecked in the C code) read as zero.
* Fallible C functions returning the sentinels `(paddr_t)-1` / negative
  `ssize_t` are embedded with `Option`: `none` is the sentinel return.
* External services (libfdt queries, MMU mapping service) are
  uninterpreted function fields of `Fdt` / `MapEnv` structures.
-/

/-- The external Blob Query Service (libfdt) as seen by `dt.c`:
uninterpreted query functions on node offsets. `getprop` returns the raw
property bytes, `parent_offset` / `address_cells` / `size_cells` return
`int`s (negative = failure), `node_check_compatible` returns `0` when the
node is compatible with the given string. -/
structure Fdt where
  getprop : Int → String → Option (List Nat)
  parent_offset : Int → Int
  address_cells : Int → Int
  size_cells : Int → Int
  node_check_compatible : Int → String → Int

/-- Modelled from the spec: the status flag constants of `kernel/dt.h`
(declared outside `src/`): a two-bit set with `DT_STATUS_OK_NSEC` and
`DT_STATUS_OK_SEC` as the two flags and `DT_STATUS_DISABLED` the empty
set (neither flag). -/
def DT_STATUS_DISABLED : Nat := 0

/-- Modelled from the spec: the non-secure activation flag (bit 0). -/
def DT_STATUS_OK_NSEC : Nat := 1

/-- Modelled from the spec: the secure activation flag (bit 1). -/
def DT_STATUS_OK_SEC : Nat := 2

/-- C `strncmp(s1, s2, n) == 0`: compare at most `n` bytes, stopping
early at a NUL byte; bytes past the end of a list read as NUL (the
terminator of the C string literal). -/
def strncmp_eq (s1 s2 : List Nat) : Nat → Bool
  | 0 => true
  | n + 1 =>
    let c1 := s1.headD 0
    let c2 := s2.headD 0
    if c1 = c2 then
      if c1 = 0 then true else strncmp_eq s1.tail s2.tail n
    else false

/-- Bytes of the literal `"ok"`. -/
def okBytes : List Nat := [111, 107]

/-- Bytes of the literal `"okay"`. -/
def okayBytes : List Nat := [111, 107, 97, 121]

/-- `static bool is_okay(const char *st, int len)` from `dt.c`:
`!strncmp(st, "ok", len) || !strncmp(st, "okay", len)`. -/
def is_okay (st : List Nat) (len : Nat) : Bool :=
  strncmp_eq st okBytes len || strncmp_eq st okayBytes len

/-- `int _fdt_get_status(const void *fdt, int offs)` from `dt.c`:
resolve the `status` / `secure-status` properties into the two-bit flag
set. -/
def _fdt_get_status (fdt : Fdt) (offs : Int) : Nat :=
  let st0 : Nat := 0
  -- status: absent, or is_okay(prop, len), sets DT_STATUS_OK_NSEC
  let st1 :=
    match fdt.getprop offs "status" with
    | none => st0 ||| DT_STATUS_OK_NSEC
    | some prop =>
      if is_okay prop prop.length then st0 ||| DT_STATUS_OK_NSEC else st0
  -- secure-status: absent defaults to status's resolution
  match fdt.getprop offs "secure-status" with
  | none => if st1 &&& DT_STATUS_OK_NSEC ≠ 0 then st1 ||| DT_STATUS_OK_SEC else st1
  | some prop =>
    if is_okay prop prop.length then st1 ||| DT_STATUS_OK_SEC else st1

/-- Read the big-endian 32-bit cell at word index `i` of a property's
byte list (`fdt32_to_cpu(*(cell + i))`); bytes past the stored length
read as zero. -/
def fdt32_at (b : List Nat) (i : Nat) : Nat :=
  b.getD (4 * i) 0 * 2 ^ 24 + b.getD (4 * i + 1) 0 * 2 ^ 16 +
    b.getD (4 * i + 2) 0 * 2 ^ 8 + b.getD (4 * i + 3) 0

/-- View a property's bytes as the list of its complete 32-bit words. -/
def wordsOf (b : List Nat) : List Nat :=
  (List.range (b.length / 4)).map (fdt32_at b)

/-- `static paddr_t _fdt_read_paddr(const uint32_t *cell, int n)` from
`dt.c`. `arm32` selects the `#ifdef ARM32` branch (32-bit physical
addresses). `cell` is the word sequence the C pointer designates; the
`goto bad` / `return (paddr_t)-1` failure is `none`. -/
def _fdt_read_paddr (arm32 : Bool) (cell : List Nat) (n : Int) : Option Nat :=
  if n < 1 ∨ 2 < n then none
  else
    let addr0 := cell.getD 0 0
    let addr :=
      if n = 2 then
        if arm32 then
          -- high order 32 bits can't be nonzero
          if addr0 ≠ 0 then none else some (cell.getD 1 0)
        else
          some (addr0 <<< 32 ||| cell.getD 1 0)
      else some addr0
    match addr with
    | none => none
    | some a => if a = 0 then none else some a

/-- `paddr_t _fdt_reg_base_address(const void *fdt, int offs)` from
`dt.c`; `none` is the `(paddr_t)-1` failure return. -/
def _fdt_reg_base_address (arm32 : Bool) (fdt : Fdt) (offs : Int) : Option Nat :=
  let parent := fdt.parent_offset offs
  if parent < 0 then none
  else
    match fdt.getprop offs "reg" with
    | none => none
    | some reg =>
      let ncells := fdt.address_cells parent
      if ncells < 0 then none
      else _fdt_read_paddr arm32 (wordsOf reg) ncells

/-- `ssize_t _fdt_reg_size(const void *fdt, int offs)` from `dt.c`;
`none` is the negative failure return. -/
def _fdt_reg_size (fdt : Fdt) (offs : Int) : Option Nat :=
  let parent := fdt.parent_offset offs
  if parent < 0 then none
  else
    match fdt.getprop offs "reg" with
    | none => none
    | some reg =>
      let n := fdt.address_cells parent
      if n < 1 ∨ 2 < n then none
      else
        -- reg += n
        let base := n.toNat
        let m := fdt.size_cells parent
        if m < 1 ∨ 2 < m then none
        else
          let sz := fdt32_at reg base
          if m = 2 then
            if sz ≠ 0 then none else some (fdt32_at reg (base + 1))
          else some sz

/-- Specification-side predicate (for comparison with the code's
`is_okay`): the property bytes `p`, whose stored length is `p.length`,
match the NUL-terminated literal `lit` under the length-bounded C string
comparison. This holds exactly when `p` is an initial segment of `lit`
(possibly all of it, possibly strict — including empty), or when `p`
extends `lit` with a NUL byte right after it (any bytes beyond that). -/
def okay_accepts (p lit : List Nat) : Prop :=
  (p.length ≤ lit.length ∧ p = lit.take p.length) ∨
  (lit.length < p.length ∧ p.take (lit.length + 1) = lit ++ [0])

/-- `strncmp(p, lit, p.length) == 0` for a NUL-free literal `lit` is
exactly the `okay_accepts` relation. -/
theorem strncmp_eq_length_iff (p : List Nat) :
    ∀ lit : List Nat, (∀ x ∈ lit, x ≠ 0) →
      (strncmp_eq p lit p.length = true ↔ okay_accepts p lit) := by
  induction p with
  | nil =>
    intro lit _
    simp [strncmp_eq, okay_accepts]
  | cons a p ih =>
    intro lit hlit
    cases lit with
    | nil =>
      by_cases ha : a = 0 <;>
        simp [strncmp_eq, okay_accepts, ha, List.take_succ_cons]
    | cons b lit =>
      have hb : b ≠ 0 := hlit b (by simp)
      by_cases hab : a = b
      · subst hab
        have hlit' : ∀ x ∈ lit, x ≠ 0 := fun x hx => hlit x (by simp [hx])
        simp [strncmp_eq, hb, okay_accepts, List.take_succ_cons,
          ih lit hlit', Nat.succ_le_succ_iff, Nat.succ_lt_succ_iff]
      · simp [strncmp_eq, hab, okay_accepts, List.take_succ_cons,
          fun h : a :: p = b :: lit.take p.length => hab (List.cons.injEq .. ▸ h).1]
/-- `is_okay` at the property's exact stored length accepts exactly the
values `okay_accepts` describes, against `"ok"` or `"okay"`. -/
theorem is_okay_length_iff (p : List Nat) :
    is_okay p p.length = true ↔
      (okay_accepts p okBytes ∨ okay_accepts p okayBytes) := by
  have h1 := strncmp_eq_length_iff p okBytes (by decide)
  have h2 := strncmp_eq_length_iff p okayBytes (by decide)
  simp [is_okay, Bool.or_eq_true, h1, h2]

/-- The resolved non-secure flag of `_fdt_get_status`, as a Boolean:
`status` absent or passing `is_okay`. -/
def status_ns_ok (fdt : Fdt) (offs : Int) : Bool :=
  match fdt.getprop offs "status" with
  | none => true
  | some p => is_okay p p.length

/-- The resolved secure flag of `_fdt_get_status`, as a Boolean:
`secure-status` absent inherits the non-secure flag, otherwise
`is_okay` decides. -/
def status_sec_ok (fdt : Fdt) (offs : Int) : Bool :=
  match fdt.getprop offs "secure-status" with
  | none => status_ns_ok fdt offs
  | some p => is_okay p p.length

/-- `_fdt_get_status` computes exactly the two flags `status_ns_ok`
and `status_sec_ok`. -/
theorem get_status_eq (fdt : Fdt) (offs : Int) :
    _fdt_get_status fdt offs =
      (if status_ns_ok fdt offs then DT_STATUS_OK_NSEC else 0) +
      (if status_sec_ok fdt offs then DT_STATUS_OK_SEC else 0) := by
  unfold _fdt_get_status status_sec_ok status_ns_ok
  rcases hs : fdt.getprop offs "status" with _ | p <;>
    rcases hq : fdt.getprop offs "secure-status" with _ | q <;>
      simp only [hs, hq] <;> split_ifs <;>
        simp_all [DT_STATUS_OK_NSEC, DT_STATUS_OK_SEC]

/-- The `DT_STATUS_OK_NSEC` bit of the resolved status is
`status_ns_ok`. -/
theorem get_status_nsec_bit (fdt : Fdt) (offs : Int) :
    (_fdt_get_status fdt offs &&& DT_STATUS_OK_NSEC ≠ 0) ↔
      status_ns_ok fdt offs = true := by
  cases hns : status_ns_ok fdt offs <;>
    cases hsec : status_sec_ok fdt offs <;>
      simp [get_status_eq, hns, hsec, DT_STATUS_OK_NSEC, DT_STATUS_OK_SEC]

/-- The `DT_STATUS_OK_SEC` bit of the resolved status is
`status_sec_ok`. -/
theorem get_status_sec_bit (fdt : Fdt) (offs : Int) :
    (_fdt_get_status fdt offs &&& DT_STATUS_OK_SEC ≠ 0) ↔
      status_sec_ok fdt offs = true := by
  cases hns : status_ns_ok fdt offs <;>
    cases hsec : status_sec_ok fdt offs <;>
      simp [get_status_eq, hns, hsec, DT_STATUS_OK_NSEC, DT_STATUS_OK_SEC]

/-- The resolved status is `DT_STATUS_DISABLED` exactly when neither
flag is set. -/
theorem get_status_disabled_iff (fdt : Fdt) (offs : Int) :
    _fdt_get_status fdt offs = DT_STATUS_DISABLED ↔
      (status_ns_ok fdt offs = false ∧ status_sec_ok fdt offs = false) := by
  cases hns : status_ns_ok fdt offs <;>
    cases hsec : status_sec_ok fdt offs <;>
      simp [get_status_eq, hns, hsec, DT_STATUS_DISABLED,
        DT_STATUS_OK_NSEC, DT_STATUS_OK_SEC]

/-- `enum teecore_memtypes` (only the two members `dt_map_dev` uses). -/
inductive teecore_memtypes where
  | MEM_AREA_IO_SEC
  | MEM_AREA_IO_NSEC
  deriving DecidableEq

/-- The external MMU/mapping service consumed by `dt_map_dev`:
`cpu_mmu_enabled()`, `core_mmu_add_mapping` (true = success) and
`phys_to_virt` (0 = NULL = failure). -/
structure MapEnv where
  mmu_enabled : Bool
  add_mapping : teecore_memtypes → Nat → Nat → Bool
  phys_to_virt : Nat → teecore_memtypes → Nat

/-- Observable calls `dt_map_dev` makes into the external services
(`emsg` is the `EMSG` error log). -/
inductive ServiceCall where
  | add_mapping (mtype : teecore_memtypes) (pbase : Nat) (sz : Nat)
  | phys_to_virt (pbase : Nat) (mtype : teecore_memtypes)
  | emsg
  deriving DecidableEq

/-- Result of `dt_map_dev`: return value, the final contents of the
caller's `*base` / `*size` out-parameters, and the trace of external
service calls made. -/
structure MapDevOut where
  ret : Int
  base : Nat
  size : Nat
  calls : List ServiceCall
  deriving DecidableEq

/-- The memory-type selection inside `dt_map_dev`:
`(st & DT_STATUS_OK_SEC) && !(st & DT_STATUS_OK_NSEC)` picks
`MEM_AREA_IO_SEC`, anything else `MEM_AREA_IO_NSEC`. -/
def dt_map_dev_mtype (st : Nat) : teecore_memtypes :=
  if st &&& DT_STATUS_OK_SEC ≠ 0 ∧ st &&& DT_STATUS_OK_NSEC = 0 then
    teecore_memtypes.MEM_AREA_IO_SEC
  else
    teecore_memtypes.MEM_AREA_IO_NSEC

/-- `int dt_map_dev(const void *fdt, int offs, vaddr_t *base, size_t *size)`
from `dt.c`. `base`/`size` are the initial contents of the caller's
out-parameters; `none` models the `assert(cpu_mmu_enabled())` firing
(fatal, no return value). -/
def dt_map_dev (arm32 : Bool) (env : MapEnv) (fdt : Fdt) (offs : Int)
    (base size : Nat) : Option MapDevOut :=
  if ¬ env.mmu_enabled then none
  else
    let st := _fdt_get_status fdt offs
    if st = DT_STATUS_DISABLED then some ⟨-1, base, size, []⟩
    else
      match _fdt_reg_base_address arm32 fdt offs with
      | none => some ⟨-1, base, size, []⟩
      | some pbase =>
        match _fdt_reg_size fdt offs with
        | none => some ⟨-1, base, size, []⟩
        | some sz =>
          let mtype := dt_map_dev_mtype st
          -- check if we have a mapping, create one if needed
          if env.add_mapping mtype pbase sz = false then
            some ⟨-1, base, size,
              [ServiceCall.add_mapping mtype pbase sz, ServiceCall.emsg]⟩
          else
            let vbase := env.phys_to_virt pbase mtype
            if vbase = 0 then
              some ⟨-1, base, size,
                [ServiceCall.add_mapping mtype pbase sz,
                 ServiceCall.phys_to_virt pbase mtype, ServiceCall.emsg]⟩
            else
              some ⟨0, vbase, sz,
                [ServiceCall.add_mapping mtype pbase sz,
                 ServiceCall.phys_to_virt pbase mtype]⟩

/-- `struct dt_device_match`: one compatibility pattern. -/
structure dt_device_match where
  compatible : String

/-- `struct dt_driver` as `dt_find_compatible_driver` sees it: a name
and the `match_table` pointer. A NULL pointer is `none`; a non-null
pointer is the unbounded sequence of `dt_device_match` records the C
code can reach by incrementing it (the declared entries followed by
whatever memory lies past the table, since the loop checks no
terminator). -/
structure dt_driver where
  name : String
  match_mem : Option (Nat → dt_device_match)

/-- The inner loop of `dt_find_compatible_driver`:
`for (dm = drv->match_table; dm; dm++)` starting at record index `i`.
The loop condition is the pointer `dm` itself, which incrementing never
nullifies, so the only normal exit is a compatible match; `fuel` bounds
the number of iterations we unfold, and `none` means the loop was still
running when the fuel ran out. -/
def scan_table (fdt : Fdt) (offs : Int) (mem : Nat → dt_device_match) :
    Nat → Nat → Option Unit
  | 0, _ => none
  | fuel + 1, i =>
    if fdt.node_check_compatible offs (mem i).compatible = 0 then some ()
    else scan_table fdt offs mem fuel (i + 1)

/-- Specification-side decoded base value of a `reg` word sequence:
the single word when `n = 1`; for `n = 2` the low-order word on a
32-bit-address platform and the high-then-low concatenation into one
64-bit value otherwise. -/
def paddr_of (arm32 : Bool) (cell : List Nat) (n : Int) : Nat :=
  if n = 2 then
    if arm32 then cell.getD 1 0 else cell.getD 0 0 <<< 32 ||| cell.getD 1 0
  else cell.getD 0 0

/-- `const struct dt_driver *dt_find_compatible_driver(const void *fdt, int offs)`
from `dt.c`, with the linker-collected registry passed as the list
`drvs` in registration order. `some (some drv)` models returning `drv`,
`some none` the `return NULL`, and `none` that the function was still
inside a `scan_table` loop when `fuel` ran out. -/
def dt_find_compatible_driver (fdt : Fdt) (offs : Int)
    (drvs : List dt_driver) (fuel : Nat) : Option (Option dt_driver) :=
  match drvs with
  | [] => some none
  | drv :: rest =>
    match drv.match_mem with
    | none => dt_find_compatible_driver fdt offs rest fuel
    | some mem =>
      match scan_table fdt offs mem fuel 0 with
      | some _ => some (some drv)
      | none => none


/-- Case analysis of `_fdt_read_paddr` with the two leading words
abstracted as plain variables. -/
theorem read_paddr_spec (arm32 : Bool) (cell : List Nat) (n : Int)
    (c0 c1 : Nat) (h0 : cell.getD 0 0 = c0) (h1 : cell.getD 1 0 = c1) :
    (_fdt_read_paddr arm32 cell n = none ↔
      ((n < 1 ∨ 2 < n) ∨
        (n = 2 ∧ arm32 = true ∧ c0 ≠ 0) ∨
        paddr_of arm32 cell n = 0)) ∧
    (∀ v, _fdt_read_paddr arm32 cell n = some v ↔
      (¬ ((n < 1 ∨ 2 < n) ∨
          (n = 2 ∧ arm32 = true ∧ c0 ≠ 0) ∨
          paddr_of arm32 cell n = 0) ∧
        v = paddr_of arm32 cell n)) := by
  unfold _fdt_read_paddr paddr_of
  simp only [h0, h1]
  by_cases hn : n < 1 ∨ 2 < n
  · simp [hn]
  · have hn12 : n = 1 ∨ n = 2 := by omega
    rcases hn12 with hn1 | hn2
    · subst hn1
      constructor
      · by_cases hz : c0 = 0 <;> simp [hz]
      · intro v
        by_cases hz : c0 = 0 <;> simp [hz] <;> tauto
    · subst hn2
      cases arm32 with
      | false =>
        constructor
        · by_cases hz : c0 <<< 32 ||| c1 = 0 <;> simp [hz]
        · intro v
          by_cases hz : c0 <<< 32 ||| c1 = 0 <;> simp [hz] <;> tauto
      | true =>
        by_cases hhi : c0 = 0
        · subst hhi
          constructor
          · by_cases hz : c1 = 0 <;> simp [hz]
          · intro v
            by_cases hz : c1 = 0 <;> simp [hz] <;> tauto
        · simp [hhi]

/-- C4: base decoding over a `reg` word sequence with address-cell count
`n` fails exactly when `n` is not 1 or 2, when `n = 2` and the
high-order word is nonzero on a 32-bit-address platform, or when the
decoded base is zero; otherwise it succeeds with the base described by
`paddr_of` (single word for `n = 1`; low word on 32-bit, high-then-low
concatenation on 64-bit, for `n = 2`). -/
theorem c4_read_paddr_characterization (arm32 : Bool) (cell : List Nat) (n : Int) :
    (_fdt_read_paddr arm32 cell n = none ↔
      ((n < 1 ∨ 2 < n) ∨
        (n = 2 ∧ arm32 = true ∧ cell.getD 0 0 ≠ 0) ∨
        paddr_of arm32 cell n = 0)) ∧
    (∀ v, _fdt_read_paddr arm32 cell n = some v ↔
      (¬ ((n < 1 ∨ 2 < n) ∨
          (n = 2 ∧ arm32 = true ∧ cell.getD 0 0 ≠ 0) ∨
          paddr_of arm32 cell n = 0) ∧
        v = paddr_of arm32 cell n)) :=
  read_paddr_spec arm32 cell n _ _ rfl rfl

/-- Case analysis of `_fdt_reg_size` with the parent offset, property
bytes and cell counts abstracted as plain variables. -/
theorem reg_size_spec (fdt : Fdt) (offs : Int) (par ac sc : Int)
    (ereg : Option (List Nat))
    (hpar : fdt.parent_offset offs = par)
    (hreg : fdt.getprop offs "reg" = ereg)
    (hac : fdt.address_cells par = ac)
    (hsc : fdt.size_cells par = sc) :
    (_fdt_reg_size fdt offs = none ↔
      (par < 0 ∨ ereg = none ∨ ac < 1 ∨ 2 < ac ∨ sc < 1 ∨ 2 < sc ∨
        (sc = 2 ∧ ∃ reg, ereg = some reg ∧ fdt32_at reg ac.toNat ≠ 0))) ∧
    (∀ v, _fdt_reg_size fdt offs = some v →
      ∃ reg, ereg = some reg ∧ 0 ≤ par ∧ (ac = 1 ∨ ac = 2) ∧
        ((sc = 1 ∧ v = fdt32_at reg ac.toNat) ∨
         (sc = 2 ∧ fdt32_at reg ac.toNat = 0 ∧
           v = fdt32_at reg (ac.toNat + 1)))) := by
  unfold _fdt_reg_size
  simp only [hpar, hreg, hac, hsc]
  by_cases hp : par < 0
  · simp [hp]
  · rcases ereg with _ | reg
    · simp [hp]
    · by_cases h1 : ac < 1 ∨ 2 < ac
      · simp [hp, h1]
        omega
      · by_cases h2 : sc < 1 ∨ 2 < sc
        · simp [hp, h1, h2]
          omega
        · by_cases hsc2 : sc = 2
          · by_cases hsz : fdt32_at reg ac.toNat = 0
            · simp [hp, h1, h2, hsc2, hsz]
              omega
            · simp [hp, h1, h2, hsc2, hsz]
          · simp [hp, h1, h2, hsc2]
            omega

/-- C5: size resolution skips `address_cells` words of `reg` and then
consumes `size_cells` words: it fails exactly when the parent is
missing, the `reg` property is missing, the parent's address-cell or
size-cell count is not 1 or 2, or the size-cell count is 2 and the
high-order size word (the word right after the address words) is
nonzero; on success it returns the (low) 32-bit size word: the word at
index `address_cells` for one size cell, the word after it for two. -/
theorem c5_reg_size_characterization (fdt : Fdt) (offs : Int) :
    (_fdt_reg_size fdt offs = none ↔
      (fdt.parent_offset offs < 0 ∨ fdt.getprop offs "reg" = none ∨
        fdt.address_cells (fdt.parent_offset offs) < 1 ∨
        2 < fdt.address_cells (fdt.parent_offset offs) ∨
        fdt.size_cells (fdt.parent_offset offs) < 1 ∨
        2 < fdt.size_cells (fdt.parent_offset offs) ∨
        (fdt.size_cells (fdt.parent_offset offs) = 2 ∧
          ∃ reg, fdt.getprop offs "reg" = some reg ∧
            fdt32_at reg (fdt.address_cells (fdt.parent_offset offs)).toNat ≠ 0))) ∧
    (∀ v, _fdt_reg_size fdt offs = some v →
      ∃ reg, fdt.getprop offs "reg" = some reg ∧
        0 ≤ fdt.parent_offset offs ∧
        (fdt.address_cells (fdt.parent_offset offs) = 1 ∨
          fdt.address_cells (fdt.parent_offset offs) = 2) ∧
        ((fdt.size_cells (fdt.parent_offset offs) = 1 ∧
           v = fdt32_at reg (fdt.address_cells (fdt.parent_offset offs)).toNat) ∨
         (fdt.size_cells (fdt.parent_offset offs) = 2 ∧
           fdt32_at reg (fdt.address_cells (fdt.parent_offset offs)).toNat = 0 ∧
           v = fdt32_at reg
             ((fdt.address_cells (fdt.parent_offset offs)).toNat + 1)))) :=
  reg_size_spec fdt offs (fdt.parent_offset offs)
    (fdt.address_cells (fdt.parent_offset offs))
    (fdt.size_cells (fdt.parent_offset offs))
    (fdt.getprop offs "reg") rfl rfl rfl rfl

/-- Concrete mapping environment for witnesses: MMU enabled, mapping
requests always succeed, translation returns virtual address 4096. -/
def envTrivial : MapEnv :=
  { mmu_enabled := true,
    add_mapping := fun _ _ _ => true,
    phys_to_virt := fun _ _ => 4096 }

/-- Concrete blob for witnesses (the spec's end-to-end example): a node
with `status` and `secure-status` absent, `reg` = the big-endian bytes
of the words 0x0, 0x10000000, 0x0, 0x1000, and a parent at offset 0
with two address cells and two size cells. -/
def fdtReg : Fdt :=
  { getprop := fun _ name =>
      if name = "reg" then
        some [0, 0, 0, 0, 16, 0, 0, 0, 0, 0, 0, 0, 0, 0, 16, 0]
      else none,
    parent_offset := fun _ => 0,
    address_cells := fun _ => 2,
    size_cells := fun _ => 2,
    node_check_compatible := fun _ _ => 1 }

theorem c5_reg_size_characterization_witness :
    ∃ reg, fdtReg.getprop 0 "reg" = some reg ∧
      0 ≤ fdtReg.parent_offset 0 ∧
      (fdtReg.address_cells (fdtReg.parent_offset 0) = 1 ∨
        fdtReg.address_cells (fdtReg.parent_offset 0) = 2) ∧
      ((fdtReg.size_cells (fdtReg.parent_offset 0) = 1 ∧
         4096 = fdt32_at reg (fdtReg.address_cells (fdtReg.parent_offset 0)).toNat) ∨
       (fdtReg.size_cells (fdtReg.parent_offset 0) = 2 ∧
         fdt32_at reg (fdtReg.address_cells (fdtReg.parent_offset 0)).toNat = 0 ∧
         4096 = fdt32_at reg
           ((fdtReg.address_cells (fdtReg.parent_offset 0)).toNat + 1))) :=
  (c5_reg_size_characterization fdtReg 0).2 4096 (by rfl)

/-- With the MMU enabled, `dt_map_dev` always returns a value (the
assertion cannot fire). -/
theorem dt_map_dev_isSome_of_mmu (arm32 : Bool) (env : MapEnv) (fdt : Fdt)
    (offs : Int) (b s : Nat) (h : env.mmu_enabled = true) :
    (dt_map_dev arm32 env fdt offs b s).isSome := by
  unfold dt_map_dev
  simp only [h, not_true_eq_false, if_false]
  split
  · simp
  · split
    · simp
    · split
      · simp
      · split
        · simp
        · split <;> simp

/-- C9: `dt_map_dev` requires the MMU to be active: the embedded
`assert(cpu_mmu_enabled())` fires (no return value, modelled `none`)
exactly when the MMU subsystem is not enabled; under the precondition
the assertion never fails and the call returns. -/
theorem c9_mmu_assert_characterization (arm32 : Bool) (env : MapEnv)
    (fdt : Fdt) (offs : Int) (b s : Nat) :
    dt_map_dev arm32 env fdt offs b s = none ↔ env.mmu_enabled = false := by
  constructor
  · intro hnone
    cases h : env.mmu_enabled
    · rfl
    · have hs := dt_map_dev_isSome_of_mmu arm32 env fdt offs b s h
      rw [hnone] at hs
      simp at hs
  · intro h
    simp [dt_map_dev, h]

/-- C8: a node whose resolved status has neither security flag set makes
`dt_map_dev` return the failure value `-1` immediately, with the
caller's out-parameters untouched and with an empty service-call trace:
no mapping-establishment call, no translation call, and no error log. -/
theorem c8_disabled_no_mapping (arm32 : Bool) (env : MapEnv) (fdt : Fdt)
    (offs : Int) (b s : Nat) (hmmu : env.mmu_enabled = true)
    (hdis : _fdt_get_status fdt offs = DT_STATUS_DISABLED) :
    dt_map_dev arm32 env fdt offs b s = some ⟨-1, b, s, []⟩ := by
  simp [dt_map_dev, hmmu, hdis]

/-- Concrete blob for the disabled-node witness: `status` = the bytes of
`"disabled"`, `secure-status` absent. -/
def fdtDisabled : Fdt :=
  { getprop := fun _ name =>
      if name = "status" then some [100, 105, 115, 97, 98, 108, 101, 100]
      else none,
    parent_offset := fun _ => 0,
    address_cells := fun _ => 2,
    size_cells := fun _ => 2,
    node_check_compatible := fun _ _ => 1 }

theorem c8_disabled_no_mapping_witness :
    dt_map_dev false envTrivial fdtDisabled 0 7 9 = some ⟨-1, 7, 9, []⟩ :=
  c8_disabled_no_mapping false envTrivial fdtDisabled 0 7 9 rfl (by rfl)

/-- C10: whenever `dt_map_dev` returns a failure, the caller-supplied
out-locations keep their previous contents; on the success path both are
written: the base from the translation query (nonzero) and the size from
the resolved `reg` size. -/
theorem c10_out_params_frame (arm32 : Bool) (env : MapEnv) (fdt : Fdt)
    (offs : Int) (b s : Nat) (out : MapDevOut)
    (hout : dt_map_dev arm32 env fdt offs b s = some out) :
    (out.ret ≠ 0 → out.base = b ∧ out.size = s) ∧
    (out.ret = 0 →
      ∃ pbase sz, _fdt_reg_base_address arm32 fdt offs = some pbase ∧
        _fdt_reg_size fdt offs = some sz ∧
        out.base = env.phys_to_virt pbase
          (dt_map_dev_mtype (_fdt_get_status fdt offs)) ∧
        out.base ≠ 0 ∧ out.size = sz) := by
  unfold dt_map_dev at hout
  by_cases hmmu : env.mmu_enabled = true
  · simp only [hmmu, not_true_eq_false, if_false] at hout
    split at hout
    · injection hout with h
      subst h
      exact ⟨fun _ => ⟨rfl, rfl⟩, fun h0 => by simp at h0⟩
    · split at hout
      · injection hout with h
        subst h
        exact ⟨fun _ => ⟨rfl, rfl⟩, fun h0 => by simp at h0⟩
      · next pbase hpbase =>
        split at hout
        · injection hout with h
          subst h
          exact ⟨fun _ => ⟨rfl, rfl⟩, fun h0 => by simp at h0⟩
        · next sz hsz =>
          split at hout
          · injection hout with h
            subst h
            exact ⟨fun _ => ⟨rfl, rfl⟩, fun h0 => by simp at h0⟩
          · split at hout
            · injection hout with h
              subst h
              exact ⟨fun _ => ⟨rfl, rfl⟩, fun h0 => by simp at h0⟩
            · next hvb =>
              injection hout with h
              subst h
              exact ⟨fun hr => absurd rfl hr,
                fun _ => ⟨pbase, sz, hpbase, hsz, rfl, hvb, rfl⟩⟩
  · simp only [hmmu] at hout
    simp at hout

/-- The result `dt_map_dev false envTrivial fdtReg 0 5 6` evaluates to:
success, virtual base 4096, size 4096, one non-secure mapping request
followed by one translation query. -/
def outEx : MapDevOut :=
  ⟨0, 4096, 4096,
    [ServiceCall.add_mapping teecore_memtypes.MEM_AREA_IO_NSEC 268435456 4096,
     ServiceCall.phys_to_virt 268435456 teecore_memtypes.MEM_AREA_IO_NSEC]⟩

theorem c10_out_params_frame_witness :
    (outEx.ret ≠ 0 → outEx.base = 5 ∧ outEx.size = 6) ∧
    (outEx.ret = 0 →
      ∃ pbase sz, _fdt_reg_base_address false fdtReg 0 = some pbase ∧
        _fdt_reg_size fdtReg 0 = some sz ∧
        outEx.base = envTrivial.phys_to_virt pbase
          (dt_map_dev_mtype (_fdt_get_status fdtReg 0)) ∧
        outEx.base ≠ 0 ∧ outEx.size = sz) :=
  c10_out_params_frame false envTrivial fdtReg 0 5 6 outEx (by rfl)

/-- C1: the security classification of `dt_map_dev` is secure-only I/O
(`MEM_AREA_IO_SEC`) exactly when the secure flag is set and the
non-secure flag is clear; every other flag combination yields
`MEM_AREA_IO_NSEC`; and every mapping request `dt_map_dev` issues
carries exactly this classification of the node's resolved status. -/
theorem c1_secure_class_selection :
    (∀ st : Nat,
      (dt_map_dev_mtype st = teecore_memtypes.MEM_AREA_IO_SEC ↔
        (st &&& DT_STATUS_OK_SEC ≠ 0 ∧ st &&& DT_STATUS_OK_NSEC = 0)) ∧
      (dt_map_dev_mtype st = teecore_memtypes.MEM_AREA_IO_NSEC ↔
        ¬ (st &&& DT_STATUS_OK_SEC ≠ 0 ∧ st &&& DT_STATUS_OK_NSEC = 0))) ∧
    (∀ (arm32 : Bool) (env : MapEnv) (fdt : Fdt) (offs : Int) (b s : Nat)
        (out : MapDevOut) (m : teecore_memtypes) (p z : Nat),
      dt_map_dev arm32 env fdt offs b s = some out →
      ServiceCall.add_mapping m p z ∈ out.calls →
      m = dt_map_dev_mtype (_fdt_get_status fdt offs)) := by
  constructor
  · intro st
    unfold dt_map_dev_mtype
    by_cases h : st &&& DT_STATUS_OK_SEC ≠ 0 ∧ st &&& DT_STATUS_OK_NSEC = 0 <;>
      simp [h]
  · intro arm32 env fdt offs b s out m p z hout hmem
    unfold dt_map_dev at hout
    by_cases hmmu : env.mmu_enabled = true
    · simp only [hmmu, not_true_eq_false, if_false] at hout
      split at hout
      · injection hout with h
        subst h
        simp at hmem
      · split at hout
        · injection hout with h
          subst h
          simp at hmem
        · split at hout
          · injection hout with h
            subst h
            simp at hmem
          · split at hout
            · injection hout with h
              subst h
              simp at hmem
              exact hmem.1
            · split at hout
              · injection hout with h
                subst h
                simp at hmem
                exact hmem.1
              · injection hout with h
                subst h
                simp at hmem
                exact hmem.1
    · simp only [hmmu] at hout
      simp at hout

theorem c1_secure_class_selection_witness :
    (dt_map_dev_mtype 2 = teecore_memtypes.MEM_AREA_IO_SEC ↔
      ((2 : Nat) &&& DT_STATUS_OK_SEC ≠ 0 ∧ (2 : Nat) &&& DT_STATUS_OK_NSEC = 0)) ∧
    teecore_memtypes.MEM_AREA_IO_NSEC =
      dt_map_dev_mtype (_fdt_get_status fdtReg 0) :=
  ⟨(c1_secure_class_selection.1 2).1,
   c1_secure_class_selection.2 false envTrivial fdtReg 0 5 6 outEx
     teecore_memtypes.MEM_AREA_IO_NSEC 268435456 4096 (by rfl)
     (by simp [outEx])⟩

/-- If no record reachable from a non-null match-table pointer satisfies
the compatible check, the inner loop of `dt_find_compatible_driver` is
still running after any number of iterations (its condition is the
pointer itself, which incrementing never nullifies). -/
theorem scan_table_stuck (fdt : Fdt) (offs : Int) (mem : Nat → dt_device_match)
    (h : ∀ i, fdt.node_check_compatible offs (mem i).compatible ≠ 0) :
    ∀ fuel i, scan_table fdt offs mem fuel i = none := by
  intro fuel
  induction fuel with
  | zero => intro i; rfl
  | succ n ih =>
    intro i
    simp [scan_table, h i, ih (i + 1)]

/-- Blob for the driver-matching refutations: the node is compatible
with `"banana"` and nothing else. -/
def fdtBanana : Fdt :=
  { getprop := fun _ _ => none,
    parent_offset := fun _ => 0,
    address_cells := fun _ => 1,
    size_cells := fun _ => 1,
    node_check_compatible := fun _ s => if s = "banana" then 0 else 1 }

/-- Blob for the inner-scan refutation: no node is compatible with
anything. -/
def fdtNoMatch : Fdt :=
  { getprop := fun _ _ => none,
    parent_offset := fun _ => 0,
    address_cells := fun _ => 1,
    size_cells := fun _ => 1,
    node_check_compatible := fun _ _ => 1 }

/-- Match-table memory holding `"apple"` entries everywhere. -/
def memApple : Nat → dt_device_match := fun _ => ⟨"apple"⟩

/-- Match-table memory holding `"banana"` entries everywhere. -/
def memBanana : Nat → dt_device_match := fun _ => ⟨"banana"⟩

/-- First registered driver: matches `"apple"` only. -/
def drvApple : dt_driver := ⟨"apple-drv", some memApple⟩

/-- Second registered driver: matches `"banana"`. -/
def drvBanana : dt_driver := ⟨"banana-drv", some memBanana⟩

/-- C7: refutation at a concrete input of the claim that the pattern
scan of `dt_find_compatible_driver` is a bounded terminating scan: when
no record reachable from the match-table pointer is compatible, the
inner loop `for (dm = drv->match_table; dm; dm++)` has not exited after
any number of iterations, for every starting index. -/
theorem c7_unbounded_inner_scan (fdt : Fdt) (offs : Int)
    (mem : Nat → dt_device_match)
    (h : ∀ i, fdt.node_check_compatible offs (mem i).compatible ≠ 0) :
    ∀ fuel i, scan_table fdt offs mem fuel i = none :=
  scan_table_stuck fdt offs mem h

theorem c7_unbounded_inner_scan_witness :
    scan_table fdtNoMatch 0 memApple 37 5 = none :=
  c7_unbounded_inner_scan fdtNoMatch 0 memApple
    (fun _ => by simp [fdtNoMatch, memApple]) 37 5

/-- C6: refutation of the first-match/not-found contract of
`dt_find_compatible_driver`: the node is compatible with the second
registered driver's pattern (`"banana"`), yet for every iteration bound
the call has not returned — it is stuck scanning past the first
driver's non-matching table, so it neither returns the first matching
descriptor nor the not-found result. -/
theorem c6_find_driver_stuck :
    fdtBanana.node_check_compatible 0 (memBanana 0).compatible = 0 ∧
    ∀ fuel,
      dt_find_compatible_driver fdtBanana 0 [drvApple, drvBanana] fuel = none := by
  refine ⟨rfl, fun fuel => ?_⟩
  have h := scan_table_stuck fdtBanana 0 memApple
    (fun _ => by simp [fdtBanana, memApple]) fuel 0
  simp [dt_find_compatible_driver, drvApple, h]

/-- Blob for the C2 counterexample: `status` = the single byte `'o'`
(a strict prefix of `"ok"`), `secure-status` absent. -/
def fdtStatusO : Fdt :=
  { getprop := fun _ name => if name = "status" then some [111] else none,
    parent_offset := fun _ => 0,
    address_cells := fun _ => 1,
    size_cells := fun _ => 1,
    node_check_compatible := fun _ _ => 1 }

/-- C2 counterexample: a present `status` value that is neither the
bytes of `"ok"` nor of `"okay"` (the single byte `'o'`, a strict
prefix) still resolves with `nonsecure_ok` set, contradicting the
claim that any such value yields `nonsecure_ok = false`. -/
theorem c2_status_exact_match_counterexample :
    fdtStatusO.getprop 0 "status" = some [111] ∧
    [111] ≠ okBytes ∧ [111] ≠ okayBytes ∧
    (_fdt_get_status fdtStatusO 0 &&& DT_STATUS_OK_NSEC ≠ 0) :=
  ⟨rfl, by decide, by decide, by decide⟩

/-- C2 (amended): `nonsecure_ok` is set exactly when `status` is absent
or its bytes pass the stored-length-bounded C string comparison against
`"ok"` or `"okay"`: exactly `"ok"`/`"okay"`, any strict prefix of them
(including the empty value), or any value extending them past an
embedded NUL terminator. -/
theorem c2_status_resolution_amended (fdt : Fdt) (offs : Int) :
    (_fdt_get_status fdt offs &&& DT_STATUS_OK_NSEC ≠ 0) ↔
      (fdt.getprop offs "status" = none ∨
        ∃ p, fdt.getprop offs "status" = some p ∧
          (okay_accepts p okBytes ∨ okay_accepts p okayBytes)) := by
  rw [get_status_nsec_bit]
  unfold status_ns_ok
  rcases hs : fdt.getprop offs "status" with _ | p
  · simp [hs]
  · simp [hs, is_okay_length_iff]

/-- Blob for the C3 counterexample: `status` absent, `secure-status` =
the single byte `'o'` (a strict prefix of `"ok"`). -/
def fdtSecO : Fdt :=
  { getprop := fun _ name =>
      if name = "secure-status" then some [111] else none,
    parent_offset := fun _ => 0,
    address_cells := fun _ => 1,
    size_cells := fun _ => 1,
    node_check_compatible := fun _ _ => 1 }

/-- C3 counterexample: a present `secure-status` value that is neither
the bytes of `"ok"` nor of `"okay"` (the single byte `'o'`) still
resolves with `secure_ok` set, contradicting the claim that a present
`secure-status` yields `secure_ok = true` only for `"ok"`/`"okay"`. -/
theorem c3_secure_exact_match_counterexample :
    fdtSecO.getprop 0 "secure-status" = some [111] ∧
    [111] ≠ okBytes ∧ [111] ≠ okayBytes ∧
    (_fdt_get_status fdtSecO 0 &&& DT_STATUS_OK_SEC ≠ 0) :=
  ⟨rfl, by decide, by decide, by decide⟩

/-- C3 (amended): when `secure-status` is absent, `secure_ok` equals the
resolved `nonsecure_ok`, for every `status` configuration; when it is
present, `secure_ok` is set exactly when its value passes the
stored-length-bounded comparison against `"ok"`/`"okay"` (which also
accepts strict prefixes and NUL-terminated extensions). -/
theorem c3_secure_status_resolution_amended (fdt : Fdt) (offs : Int) :
    (fdt.getprop offs "secure-status" = none →
      ((_fdt_get_status fdt offs &&& DT_STATUS_OK_SEC ≠ 0) ↔
        (_fdt_get_status fdt offs &&& DT_STATUS_OK_NSEC ≠ 0))) ∧
    (∀ p, fdt.getprop offs "secure-status" = some p →
      ((_fdt_get_status fdt offs &&& DT_STATUS_OK_SEC ≠ 0) ↔
        (okay_accepts p okBytes ∨ okay_accepts p okayBytes))) := by
  constructor
  · intro h
    rw [get_status_sec_bit, get_status_nsec_bit]
    unfold status_sec_ok
    simp [h]
  · intro p h
    rw [get_status_sec_bit]
    unfold status_sec_ok
    simp [h, is_okay_length_iff]

theorem c3_secure_status_resolution_amended_witness :
    ((_fdt_get_status fdtDisabled 0 &&& DT_STATUS_OK_SEC ≠ 0) ↔
      (_fdt_get_status fdtDisabled 0 &&& DT_STATUS_OK_NSEC ≠ 0)) ∧
    ((_fdt_get_status fdtSecO 0 &&& DT_STATUS_OK_SEC ≠ 0) ↔
      (okay_accepts [111] okBytes ∨ okay_accepts [111] okayBytes)) :=
  ⟨(c3_secure_status_resolution_amended fdtDisabled 0).1 rfl,
   (c3_secure_status_resolution_amended fdtSecO 0).2 [111] rfl⟩
